import Mathlib

/-!
Verification development for a small Redis-compatible server
(sources: src/redis/resp.py, src/redis/connection.py, src/redis/stream.py,
src/redis/transaction.py, src/redis/database.py, src/redis/commands.py,
src/redis/server.py).

Conventions of the shallow embedding:
- bytes are modelled as natural numbers (0..255) and byte strings as List Nat;
- Python text strings are modelled as Lean String (command layer) or as lists
  of Unicode code points, List Nat (wire protocol layer);
- Python ints are modelled as Int, Python float timestamps as Int milliseconds
  (an extended value TimeVal adds the float inf used for missing expiries);
- Python dicts (which preserve insertion order and update values in place)
  are modelled as association lists with dictSet / dictGet / dictRemove;
- raising an exception is modelled as returning Except.error; the bare
  except clauses of the source catch every error alike;
- the async scheduler is sequentialized: a command executes atomically, which
  matches the source because the claims under study involve no await points
  that interleave with other connections.
-/

/-! ### Association lists: the model of Python dict -/

/-- Mapping lookup, as Python d.get(k): first binding wins (keys are unique). -/
def dictGet {κ α : Type} [DecidableEq κ] (d : List (κ × α)) (k : κ) : Option α :=
  match d with
  | [] => none
  | (k', v) :: rest => if k' = k then some v else dictGet rest k

/-- Mapping assignment, as Python d[k] = v: updates the existing binding in
place (keeping its position, as dict does) or appends a new binding. -/
def dictSet {κ α : Type} [DecidableEq κ] (d : List (κ × α)) (k : κ) (v : α) :
    List (κ × α) :=
  match d with
  | [] => [(k, v)]
  | (k', v') :: rest => if k' = k then (k', v) :: rest else (k', v') :: dictSet rest k v

/-- Mapping removal, as Python d.pop(k). -/
def dictRemove {κ α : Type} [DecidableEq κ] (d : List (κ × α)) (k : κ) :
    List (κ × α) :=
  match d with
  | [] => []
  | (k', v) :: rest => if k' = k then rest else (k', v) :: dictRemove rest k

/-! ### Decimal rendering and parsing

Python renders integers in decimal via f-strings and parses them with int().
The renderer below is fuel-indexed so that it is structurally recursive and
kernel-reducible; natToDecDigits n lists the decimal digits of n,
most significant first. -/

def natToDecDigitsAux : Nat → Nat → List Nat
  | 0, _ => []
  | fuel + 1, n => if n = 0 then [] else natToDecDigitsAux fuel (n / 10) ++ [n % 10]

def natToDecDigits (n : Nat) : List Nat :=
  if n = 0 then [0] else natToDecDigitsAux (n + 1) n

/-- Decimal ASCII bytes of a natural number, as f-string formatting emits. -/
def natToDecBytes (n : Nat) : List Nat :=
  (natToDecDigits n).map (· + 48)

/-- Decimal string of a natural number. -/
def natToDecString (n : Nat) : String :=
  String.mk ((natToDecDigits n).map (fun d => Char.ofNat (d + 48)))

/-- Decimal string of an integer, as Python str(i). -/
def intToDecString (i : Int) : String :=
  if i < 0 then String.mk ('-' :: (natToDecDigits (-i).toNat).map (fun d => Char.ofNat (d + 48)))
  else natToDecString i.toNat

def isDigitByte (b : Nat) : Bool := 48 ≤ b && b ≤ 57

def digitBytesVal (l : List Nat) : Nat :=
  l.foldl (fun acc d => acc * 10 + (d - 48)) 0

def parseDigitBytes (l : List Nat) : Option Nat :=
  if !l.isEmpty && l.all isDigitByte then some (digitBytesVal l) else none

/-- Python int() applied to the text of a byte slice. int() also tolerates
surrounding whitespace and underscores between digits, which cannot occur in
the length fields this decoder reads; the model covers sign plus digits. -/
def parsePyIntBytes (l : List Nat) : Option Int :=
  if l.head? = some 45 then (parseDigitBytes l.tail).map (fun n => -(n : Int))
  else if l.head? = some 43 then (parseDigitBytes l.tail).map (fun n => (n : Int))
  else (parseDigitBytes l).map (fun n => (n : Int))

/-! ### UTF-8, as str.encode() / bytes.decode() use it -/

/-- UTF-8 encoding of one code point. -/
def utf8EncodeChar (c : Nat) : List Nat :=
  if c < 128 then [c]
  else if c < 2048 then [192 + c / 64, 128 + c % 64]
  else if c < 65536 then [224 + c / 4096, 128 + c / 64 % 64, 128 + c % 64]
  else [240 + c / 262144, 128 + c / 4096 % 64, 128 + c / 64 % 64, 128 + c % 64]

/-- UTF-8 encoding of a string of code points, as str.encode(). -/
def utf8Encode : List Nat → List Nat
  | [] => []
  | c :: cs => utf8EncodeChar c ++ utf8Encode cs

def isUtf8Cont (b : Nat) : Bool := 128 ≤ b && b < 192

/-- Bounds on the first continuation byte of three- and four-byte sequences:
0xE0 and 0xF0 exclude overlong encodings, 0xED excludes surrogate code
points, 0xF4 caps the code space at 0x10FFFF. -/
def utf8Lo3 (b : Nat) : Nat := if b = 224 then 160 else 128

def utf8Hi3 (b : Nat) : Nat := if b = 237 then 159 else 191

def utf8Lo4 (b : Nat) : Nat := if b = 240 then 144 else 128

def utf8Hi4 (b : Nat) : Nat := if b = 244 then 143 else 191

/-- Strict UTF-8 decoding in streaming form: the state carries the partial
code point, the number of continuation bytes still expected and the bounds
on the next byte. Rejects stray continuation bytes, truncated sequences,
overlong encodings and surrogate code points, exactly as bytes.decode(). -/
def utf8DecodeSt : Option (Nat × Nat × Nat × Nat) → List Nat → Option (List Nat)
  | none, [] => some []
  | none, b :: rest =>
    if b < 128 then (utf8DecodeSt none rest).map (b :: ·)
    else if b < 194 then none
    else if b < 224 then utf8DecodeSt (some (b - 192, 1, 128, 191)) rest
    else if b < 240 then utf8DecodeSt (some (b - 224, 2, utf8Lo3 b, utf8Hi3 b)) rest
    else if b < 245 then utf8DecodeSt (some (b - 240, 3, utf8Lo4 b, utf8Hi4 b)) rest
    else none
  | some _, [] => none
  | some (cp, need, mn, mx), b :: rest =>
    if mn ≤ b ∧ b ≤ mx then
      if need = 1 then (utf8DecodeSt none rest).map ((cp * 64 + (b - 128)) :: ·)
      else utf8DecodeSt (some (cp * 64 + (b - 128), need - 1, 128, 191)) rest
    else none

/-- bytes.decode(): returns none where Python raises UnicodeDecodeError. -/
def utf8Decode (l : List Nat) : Option (List Nat) := utf8DecodeSt none l

/-! ### RESP serialization (src/redis/resp.py)

A RespSerializable object is represented by its serialize() output, so
RespArray.serialize receives the serializations of its elements. Strings are
lists of code points here because serialization ends with str.encode(). -/

def joinBytes : List (List Nat) → List Nat
  | [] => []
  | x :: xs => x ++ joinBytes xs

/-- RespBulkString.serialize: null bulk is the five bytes of the text dollar
minus one CRLF; otherwise the f-string formats the CHARACTER length of the
string (len of a str), then the whole f-string is UTF-8 encoded. -/
def respBulkStringSerialize : Option (List Nat) → List Nat
  | none => [36, 45, 49, 13, 10]
  | some s => 36 :: (natToDecBytes s.length ++ [13, 10] ++ utf8Encode s ++ [13, 10])

/-- RespArray.serialize, applied to the serializations of its elements. -/
def respArraySerialize : Option (List (List Nat)) → List Nat
  | none => [42, 45, 49, 13, 10]
  | some elems => 42 :: (natToDecBytes elems.length ++ [13, 10] ++ joinBytes elems)

/-- RespInteger.serialize. -/
def respIntegerSerialize (i : Int) : List Nat :=
  58 :: ((if i < 0 then 45 :: natToDecBytes (-i).toNat else natToDecBytes i.toNat) ++ [13, 10])

/-- RespSimpleError.serialize. -/
def respSimpleErrorSerialize (msg : List Nat) : List Nat :=
  45 :: (utf8Encode msg ++ [13, 10])

/-- RespSimpleString.serialize. -/
def respSimpleStringSerialize (s : List Nat) : List Nat :=
  43 :: (utf8Encode s ++ [13, 10])

/-- RedisCommand.serialize: an argument vector framed as a RESP array of bulk
strings (src/redis/commands.py, RedisCommand.serialize). -/
def commandSerialize (argv : List (List Nat)) : List Nat :=
  respArraySerialize (some (argv.map (fun arg => respBulkStringSerialize (some arg))))

/-! ### The connection frame decoder (src/redis/connection.py, _recv_command)

StreamReader.readuntil up to the first CRLF is modelled by readUntilCRLF,
which returns the bytes before the separator and the bytes after it (the
source keeps the separator and strips it with a slice). A missing separator
raises IncompleteReadError, which _recv_command catches and turns into None;
other exceptions (ValueError from int, UnicodeDecodeError from decode)
propagate and kill the connection task. Both outcomes make the decoded
vector unavailable, and both are modelled as none. -/

def readUntilCRLF : List Nat → Option (List Nat × List Nat)
  | [] => none
  | b :: rest =>
    if b = 13 ∧ rest.head? = some 10 then some ([], rest.tail)
    else (readUntilCRLF rest).map (fun p => (b :: p.1, p.2))

/-- Loop body of _recv_command: read argc argument frames. Each frame is a
length line (sliced as line[1:-2] and fed to int) followed by
readexactly(arglen + 2) bytes whose last two bytes are sliced off before
bytes.decode(). A negative readexactly size raises ValueError. -/
def recvArgs : Nat → List Nat → Option (List (List Nat) × List Nat)
  | 0, data => some ([], data)
  | n + 1, data =>
    match readUntilCRLF data with
    | none => none
    | some (line, rest) =>
      match parsePyIntBytes (line.drop 1) with
      | none => none
      | some len =>
        if len + 2 < 0 then none
        else if rest.length < (len + 2).toNat then none
        else
          match utf8Decode ((rest.take (len + 2).toNat).dropLast.dropLast) with
          | none => none
          | some s => (recvArgs n (rest.drop (len + 2).toNat)).map (fun p => (s :: p.1, p.2))

/-- RedisConnection._recv_command, up to the argument vector it accumulates
(the final argv_to_command dispatch maps that vector to a command object). -/
def recvCommand (data : List Nat) : Option (List (List Nat)) :=
  match readUntilCRLF data with
  | none => none
  | some (line, rest) =>
    match parsePyIntBytes (line.drop 1) with
    | none => none
    | some argc => (recvArgs argc.toNat rest).map Prod.fst

/-! ### Python exceptions and int() on text -/

inductive PyError where
  | typeError
  | valueError
  | recursionError
deriving DecidableEq

def isDigitChar (c : Char) : Bool := '0' ≤ c && c ≤ '9'

def digitCharsVal (l : List Char) : Nat :=
  l.foldl (fun acc c => acc * 10 + (c.toNat - 48)) 0

def parseDigitChars (l : List Char) : Except PyError Nat :=
  if !l.isEmpty && l.all isDigitChar then Except.ok (digitCharsVal l)
  else Except.error PyError.valueError

/-- Python int() on a text string: optional sign followed by digits (the
whitespace and underscore tolerance of int() is unused by the callers
modelled here). Raises ValueError on anything else. -/
def pyInt (l : List Char) : Except PyError Int :=
  if l.head? = some '-' then (parseDigitChars l.tail).map (fun n => -(n : Int))
  else if l.head? = some '+' then (parseDigitChars l.tail).map (fun n => (n : Int))
  else (parseDigitChars l).map (fun n => (n : Int))

/-! ### Streams (src/redis/stream.py) -/

/-- RedisStreamEntryId: a frozen ordered dataclass; comparison is the
lexicographic tuple order Python derives from the field order. -/
structure RedisStreamEntryId where
  milliseconds : Int
  sequenceNumber : Int
deriving DecidableEq

/-- Tuple comparison of the order-derived dataclass: less-or-equal. -/
def idLeb (a b : RedisStreamEntryId) : Bool :=
  decide (a.milliseconds < b.milliseconds) ||
    (decide (a.milliseconds = b.milliseconds) && decide (a.sequenceNumber ≤ b.sequenceNumber))

/-- Tuple comparison of the order-derived dataclass: strictly less. -/
def idLtb (a b : RedisStreamEntryId) : Bool :=
  decide (a.milliseconds < b.milliseconds) ||
    (decide (a.milliseconds = b.milliseconds) && decide (a.sequenceNumber < b.sequenceNumber))

/-- RedisStreamEntryId.__add__: componentwise addition. -/
def idAdd (a b : RedisStreamEntryId) : RedisStreamEntryId :=
  ⟨a.milliseconds + b.milliseconds, a.sequenceNumber + b.sequenceNumber⟩

/-- RedisStreamEntryId.__str__. -/
def entryIdToString (a : RedisStreamEntryId) : String :=
  intToDecString a.milliseconds ++ "-" ++ intToDecString a.sequenceNumber

/-- RedisStreamEntry (its serialize method is modelled at the command layer). -/
structure RedisStreamEntry where
  entryId : RedisStreamEntryId
  kvPairs : List (String × String)
deriving DecidableEq

/-- RedisStream state: the _seq_lookup and _entries dicts. -/
structure RedisStream where
  seqLookup : List (Int × Int)
  entries : List (RedisStreamEntryId × RedisStreamEntry)
deriving DecidableEq

/-- RedisStream.__init__. -/
def emptyStream : RedisStream := ⟨[], []⟩

/-- RedisStream.most_recent_entry_id: next(reversed(dict)) is the most
recently inserted key of an insertion-ordered dict, i.e. the last one. -/
def RedisStream.mostRecentEntryId (s : RedisStream) : RedisStreamEntryId :=
  match s.entries.getLast? with
  | some (k, _) => k
  | none => ⟨0, 0⟩

inductive SeqDefault where
  | min
  | max
deriving DecidableEq

/-- RedisStream.string_to_entry_id. The branch for text without a dash
executes the source line

  return RedisStream(milliseconds, 0 if seq_default == "min" else MAX_SEQ_NUM)

which calls the RedisStream constructor (whose __init__ takes no positional
arguments) instead of RedisStreamEntryId, so after int(string) succeeds the
call raises TypeError. now is the current UNIX timestamp in milliseconds,
truncated to an integer as int(get_current_timestamp()) does. -/
def stringToEntryId (st : RedisStream) (s : List Char) (seqDefault : SeqDefault)
    (now : Int) : Except PyError RedisStreamEntryId :=
  if s = ['*'] then Except.ok ⟨now, 0⟩
  else if '-' ∈ s then
    match pyInt (s.takeWhile (· ≠ '-')) with
    | Except.error e => Except.error e
    | Except.ok ms =>
      let seqStr := (s.dropWhile (· ≠ '-')).tail
      if seqStr ≠ ['*'] then
        match pyInt seqStr with
        | Except.error e => Except.error e
        | Except.ok sq => Except.ok ⟨ms, sq⟩
      else
        match dictGet st.seqLookup ms with
        | none => Except.ok ⟨ms, if ms > 0 then 0 else 1⟩
        | some last => Except.ok ⟨ms, last + 1⟩
  else
    match pyInt s with
    | Except.error e => Except.error e
    | Except.ok _ => Except.error PyError.typeError

/-- RedisStream.xadd: fails (returns False) when the given ID is not greater
than the most recently added one, otherwise stores the entry and updates the
side table. The returned stream is the state after the call. -/
def RedisStream.xadd (s : RedisStream) (entryId : RedisStreamEntryId)
    (kvPairs : List (String × String)) : Bool × RedisStream :=
  if idLeb entryId s.mostRecentEntryId then (false, s)
  else
    (true,
      { entries := dictSet s.entries entryId ⟨entryId, kvPairs⟩,
        seqLookup := dictSet s.seqLookup entryId.milliseconds entryId.sequenceNumber })

/-- RedisStream.xrange: entries whose IDs lie in the inclusive range; a
missing lower bound becomes (0, 0) and a missing upper bound becomes the
most recent ID plus (0, 1). -/
def RedisStream.xrange (s : RedisStream) (minId maxId : Option RedisStreamEntryId) :
    List RedisStreamEntry :=
  let mn := match minId with
    | none => (⟨0, 0⟩ : RedisStreamEntryId)
    | some i => i
  let mx := match maxId with
    | none => idAdd s.mostRecentEntryId ⟨0, 1⟩
    | some i => i
  (s.entries.filter (fun p => idLeb mn p.1 && idLeb p.1 mx)).map Prod.snd

/-- RedisStream.xread. -/
def RedisStream.xread (s : RedisStream) (startId : RedisStreamEntryId) :
    List RedisStreamEntry :=
  s.xrange (some (idAdd startId ⟨0, 1⟩)) none

/-- Stream states reachable from a fresh stream by successful xadd calls. -/
inductive ReachableStream : RedisStream → Prop where
  | init : ReachableStream emptyStream
  | step {s : RedisStream} {entryId : RedisStreamEntryId}
      {kvPairs : List (String × String)} :
      ReachableStream s → (s.xadd entryId kvPairs).1 = true →
      ReachableStream (s.xadd entryId kvPairs).2

/-! ### The store (src/redis/database.py, class RedisDatabase) -/

/-- Expiry timestamps are floats in the source; float inf marks entries that
never expire. -/
inductive TimeVal where
  | fin (t : Int)
  | inf
deriving DecidableEq

/-- Comparison get_current_timestamp() >= expire_timestamp. -/
def timeGe (now : Int) : TimeVal → Bool
  | TimeVal.fin t => decide (t ≤ now)
  | TimeVal.inf => false

/-- DataStruct = Union[RedisStream, str]. -/
inductive DataStruct where
  | str (s : String)
  | stream (st : RedisStream)
deriving DecidableEq

/-- RedisDatabaseValue. -/
structure RedisDatabaseValue where
  value : DataStruct
  expireTimestamp : TimeVal
deriving DecidableEq

abbrev Database := List (String × RedisDatabaseValue)

/-- RedisDatabase.get: absent gives none; an expired binding is popped and
reported absent; otherwise the stored value. Returns the value observed and
the store after the call (the pop mutates the store). -/
def dbGet (db : Database) (key : String) (now : Int) : Option DataStruct × Database :=
  match dictGet db key with
  | none => (none, db)
  | some item =>
    if timeGe now item.expireTimestamp then (none, dictRemove db key)
    else (some item.value, db)

/-- RedisDatabase.set with an absolute expire timestamp (or none = never). -/
def dbSet (db : Database) (key : String) (value : DataStruct) (expire : TimeVal) :
    Database :=
  dictSet db key ⟨value, expire⟩

/-- In-place mutation item.value = v of the dataclass stored under key,
keeping its expire_timestamp (used by increment, and by XADD which mutates
the stream object the store already references). -/
def dbUpdateValue (db : Database) (key : String) (v : DataStruct) : Database :=
  match db with
  | [] => []
  | (k, item) :: rest =>
    if k = key then (k, { item with value := v }) :: rest
    else (k, item) :: dbUpdateValue rest key v

/-- RedisDatabase.increment. Note that the source reads the raw dict
(self._database.get(key)) rather than self.get(key), so the expiry check of
get is NOT applied: an expired binding is still incremented. int(value) on a
stream raises TypeError and on a non-numeric string raises ValueError; the
bare except turns both into None. -/
def dbIncrement (db : Database) (key : String) : Option Int × Database :=
  match dictGet db key with
  | none => (some 1, dbSet db key (DataStruct.str "1") TimeVal.inf)
  | some item =>
    match item.value with
    | DataStruct.str s =>
      match pyInt s.data with
      | Except.ok n => (some (n + 1), dbUpdateValue db key (DataStruct.str (intToDecString (n + 1))))
      | Except.error _ => (none, db)
    | DataStruct.stream _ => (none, db)

/-- RedisDatabase.keys. -/
def dbKeys (db : Database) : List String := db.map Prod.fst

/-! ### RESP responses of the command layer

At the command layer a response is an abstract RESP value (its serialize
output is the byte layer above); strings here are Lean String. Stream
entries are serialized eagerly by RedisStreamEntry.serialize, modelled by
streamEntryToResp below. -/

inductive Resp where
  | simpleString (s : String)
  | simpleError (s : String)
  | integer (i : Int)
  | bulkString (s : Option String)
  | array (elements : Option (List Resp))

/-- RedisStreamEntry.serialize as an abstract RESP value: a two-element
array of the ID text and the flattened key/value pairs. -/
def streamEntryToResp (e : RedisStreamEntry) : Resp :=
  Resp.array (some
    [Resp.bulkString (some (entryIdToString e.entryId)),
     Resp.array (some (e.kvPairs.foldr
       (fun kv acc => Resp.bulkString (some kv.1) :: Resp.bulkString (some kv.2) :: acc) []))])

/-! ### Commands and the connection-side machine (src/redis/commands.py,
src/redis/transaction.py)

The modelled command subset covers the data and transaction commands the
claims quantify over; INFO / CONFIG / KEYS-glob matching / REPLCONF / PSYNC
(replication handshake plumbing) and the blocking XREAD loop are outside
this machine. The machine is the state a CLIENT connection can observe:
the store, the transaction queue of the connection, its propagate offset,
the ack offsets of the replica set, the frozen current timestamp, and a log
of payloads handed to send_command_to_replicas. -/

inductive Cmd where
  | ping
  | echo (message : String)
  | get (key : String)
  | set (key value : String) (expireTime : Option Int)
  | incr (key : String)
  | typeCmd (key : String)
  | keys
  | multi
  | exec
  | discard
  | wait (numReplicas timeoutMs : Int)
  | xadd (key : String) (idStr : String) (pairs : List (String × String))
  | xrange (key : String) (minStr maxStr : String)

/-- Payloads passed to RedisServer.send_command_to_replicas. -/
inductive ReplicaSend where
  | getack
  | propagated (c : Cmd)

structure Machine where
  db : Database
  queue : Option (List Cmd)
  propOffset : Int
  replicas : List Int
  sentToReplicas : List ReplicaSend
  now : Int

/-- RedisTransaction.activate. -/
def transactionActivate (q : Option (List Cmd)) : Bool × Option (List Cmd) :=
  match q with
  | some _ => (false, q)
  | none => (true, some [])

/-- RedisTransaction.discard. -/
def transactionDiscard (q : Option (List Cmd)) : Bool × Option (List Cmd) :=
  match q with
  | none => (false, none)
  | some _ => (true, none)

/-- RedisServer.send_command_to_replicas: returns immediately when the
replica set is empty, otherwise writes the serialized payload to every
replica (logged here as one broadcast event). -/
def sendCommandToReplicas (payload : ReplicaSend) (m : Machine) : Machine :=
  if m.replicas.isEmpty then m
  else { m with sentToReplicas := m.sentToReplicas ++ [payload] }

/-- RedisServer.get_num_acked_replicas: how many replicas have acknowledged
at least the target offset. -/
def getNumAckedReplicas (m : Machine) (targetOffset : Int) : Nat :=
  (m.replicas.filter (fun ack => decide (targetOffset ≤ ack))).length

/-- MultiCommand._execute. -/
def multiExecute (m : Machine) : Resp × Machine :=
  match transactionActivate m.queue with
  | (false, q) => (Resp.simpleError "ERR MULTI calls can not be nested", { m with queue := q })
  | (true, q) => (Resp.simpleString "OK", { m with queue := q })

/-- DiscardCommand._execute. -/
def discardExecute (m : Machine) : Resp × Machine :=
  match transactionDiscard m.queue with
  | (false, q) => (Resp.simpleError "ERR DISCARD without MULTI", { m with queue := q })
  | (true, q) => (Resp.simpleString "OK", { m with queue := q })

/-- GetCommand._execute. -/
def getExecute (key : String) (m : Machine) : Resp × Machine :=
  match dbGet m.db key m.now with
  | (none, db') => (Resp.bulkString none, { m with db := db' })
  | (some (DataStruct.str s), db') => (Resp.bulkString (some s), { m with db := db' })
  | (some (DataStruct.stream _), db') =>
    (Resp.simpleError "WRONGTYPE Operation against a key holding the wrong kind of value",
     { m with db := db' })

/-- SetCommand._execute: an optional trailing argument is a relative expire
time in milliseconds. -/
def setExecute (key value : String) (expireTime : Option Int) (m : Machine) :
    Resp × Machine :=
  match expireTime with
  | none => (Resp.simpleString "OK", { m with db := dbSet m.db key (DataStruct.str value) TimeVal.inf })
  | some t =>
    (Resp.simpleString "OK",
     { m with db := dbSet m.db key (DataStruct.str value) (TimeVal.fin (m.now + t)) })

/-- IncrCommand._execute. -/
def incrExecute (key : String) (m : Machine) : Resp × Machine :=
  match dbIncrement m.db key with
  | (some n, db') => (Resp.integer n, { m with db := db' })
  | (none, db') =>
    (Resp.simpleError "ERR value is not an integer or out of range", { m with db := db' })

/-- TypeCommand._execute. -/
def typeExecute (key : String) (m : Machine) : Resp × Machine :=
  match dbGet m.db key m.now with
  | (none, db') => (Resp.simpleString "none", { m with db := db' })
  | (some (DataStruct.str _), db') => (Resp.simpleString "string", { m with db := db' })
  | (some (DataStruct.stream _), db') => (Resp.simpleString "stream", { m with db := db' })

/-- KeysCommand._execute. -/
def keysExecute (m : Machine) : Resp × Machine :=
  (Resp.array (some ((dbKeys m.db).map (fun k => Resp.bulkString (some k)))), m)

/-- WaitCommand._execute. When the originating connection has propagated
bytes, REPLCONF GETACK * is broadcast first. The polling loop is modelled
under a static replica set: the sequential machine has no concurrent ACK
updates between yields, so every poll returns the same count and the loop
result is get_num_acked_replicas(propogate_offset) whether it breaks early
or times out. -/
def waitExecute (numReplicas timeoutMs : Int) (m : Machine) : Resp × Machine :=
  let m1 := if m.propOffset > 0 then sendCommandToReplicas ReplicaSend.getack m else m
  (Resp.integer (getNumAckedReplicas m1 m.propOffset), m1)

/-- Tail of XaddCommand._execute once the stream object and the store
holding it are known: parses the ID and attempts the append; the two
failure reasons have distinct error messages. The stream object is mutated
in place, so the store keeps the expire timestamp of an existing binding. -/
def xaddOnStream (key idStr : String) (pairs : List (String × String)) (m : Machine)
    (st : RedisStream) (db : Database) : Except PyError (Resp × Machine) :=
  match stringToEntryId st idStr.data SeqDefault.min m.now with
  | Except.error e => Except.error e
  | Except.ok entryId =>
    match st.xadd entryId (pairs.foldl (fun d kv => dictSet d kv.1 kv.2) []) with
    | (true, st') =>
      Except.ok
        (Resp.bulkString (some (entryIdToString entryId)),
         { m with db := dbUpdateValue db key (DataStruct.stream st') })
    | (false, _) =>
      if entryId = ⟨0, 0⟩ then
        Except.ok
          (Resp.simpleError "ERR The ID specified in XADD must be greater than 0-0",
           { m with db := db })
      else
        Except.ok
          (Resp.simpleError
             "ERR The ID specified in XADD is equal or smaller than the target stream top item",
           { m with db := db })

/-- XaddCommand._execute: creates the stream eagerly when the key is absent
(before validating the entry ID) and rejects non-stream values. -/
def xaddExecute (key idStr : String) (pairs : List (String × String)) (m : Machine) :
    Except PyError (Resp × Machine) :=
  match dbGet m.db key m.now with
  | (some (DataStruct.str _), db1) =>
    Except.ok
      (Resp.simpleError "WRONGTYPE Operation against a key holding the wrong kind of value",
       { m with db := db1 })
  | (some (DataStruct.stream st), db1) => xaddOnStream key idStr pairs m st db1
  | (none, db1) =>
    xaddOnStream key idStr pairs m emptyStream
      (dbSet db1 key (DataStruct.stream emptyStream) TimeVal.inf)

/-- XrangeCommand._execute: a dash and a plus denote missing bounds, other
bounds go through string_to_entry_id with min and max defaults. -/
def xrangeExecute (key minStr maxStr : String) (m : Machine) :
    Except PyError (Resp × Machine) :=
  match dbGet m.db key m.now with
  | (none, db1) => Except.ok (Resp.array (some []), { m with db := db1 })
  | (some (DataStruct.str _), db1) =>
    Except.ok
      (Resp.simpleError "WRONGTYPE Operation against a key holding the wrong kind of value",
       { m with db := db1 })
  | (some (DataStruct.stream st), db1) =>
    match (if minStr = "-" then Except.ok none
           else (stringToEntryId st minStr.data SeqDefault.min m.now).map some) with
    | Except.error e => Except.error e
    | Except.ok minId =>
      match (if maxStr = "+" then Except.ok none
             else (stringToEntryId st maxStr.data SeqDefault.max m.now).map some) with
      | Except.error e => Except.error e
      | Except.ok maxId =>
        Except.ok
          (Resp.array (some ((st.xrange minId maxId).map streamEntryToResp)),
           { m with db := db1 })

/-- Argument vector of a modelled command, used where the source serializes
the command (propagation and offset accounting re-serialize self._argv). -/
def cmdArgv : Cmd → List String
  | Cmd.ping => ["PING"]
  | Cmd.echo message => ["ECHO", message]
  | Cmd.get key => ["GET", key]
  | Cmd.set key value none => ["SET", key, value]
  | Cmd.set key value (some t) => ["SET", key, value, "px", intToDecString t]
  | Cmd.incr key => ["INCR", key]
  | Cmd.typeCmd key => ["TYPE", key]
  | Cmd.keys => ["KEYS", "*"]
  | Cmd.multi => ["MULTI"]
  | Cmd.exec => ["EXEC"]
  | Cmd.discard => ["DISCARD"]
  | Cmd.wait n t => ["WAIT", intToDecString n, intToDecString t]
  | Cmd.xadd key idStr pairs =>
    ["XADD", key, idStr] ++ pairs.foldr (fun kv acc => kv.1 :: kv.2 :: acc) []
  | Cmd.xrange key minStr maxStr => ["XRANGE", key, minStr, maxStr]

/-- Byte length len(self.serialize()) of a command frame. -/
def cmdSerializedLen (c : Cmd) : Int :=
  (commandSerialize ((cmdArgv c).map (fun s => s.data.map Char.toNat))).length

/-- RedisCommand._should_be_queued default is transaction.activated; MULTI,
EXEC and DISCARD override it to never queue. This predicate is the
per-class part (whether the command is of a kind that queues). -/
def isQueueableKind : Cmd → Bool
  | Cmd.multi => false
  | Cmd.exec => false
  | Cmd.discard => false
  | _ => true

/-- RedisCommand._should_be_propogated: only SET overrides it to True. -/
def isPropagatedKind : Cmd → Bool
  | Cmd.set _ _ _ => true
  | _ => false

/-- Steps 3-4 of RedisCommand.execute for a CLIENT connection: the MASTER
offset update does not apply, and a propagated command is sent to the
replicas while propogate_offset grows by the serialized length (the offset
grows even when the replica set is empty, since the increment is outside
send_command_to_replicas). -/
def propagateIfNeeded (c : Cmd) (m : Machine) : Machine :=
  if isPropagatedKind c then
    let m1 := sendCommandToReplicas (ReplicaSend.propagated c) m
    { m1 with propOffset := m1.propOffset + cmdSerializedLen c }
  else m

/-- The _execute dispatch for every modelled command except EXEC (EXEC
re-enters the command layer and is handled by executeCmd, which carries the
recursion fuel; this branch is unreachable from executeCmd). -/
def cmdExecute (c : Cmd) (m : Machine) : Except PyError (Resp × Machine) :=
  match c with
  | Cmd.ping => Except.ok (Resp.simpleString "PONG", m)
  | Cmd.echo message => Except.ok (Resp.bulkString (some message), m)
  | Cmd.get key => Except.ok (getExecute key m)
  | Cmd.set key value t => Except.ok (setExecute key value t m)
  | Cmd.incr key => Except.ok (incrExecute key m)
  | Cmd.typeCmd key => Except.ok (typeExecute key m)
  | Cmd.keys => Except.ok (keysExecute m)
  | Cmd.multi => Except.ok (multiExecute m)
  | Cmd.discard => Except.ok (discardExecute m)
  | Cmd.exec => Except.error PyError.recursionError
  | Cmd.wait n t => Except.ok (waitExecute n t m)
  | Cmd.xadd key idStr pairs => xaddExecute key idStr pairs m
  | Cmd.xrange key minStr maxStr => xrangeExecute key minStr maxStr m

/-- RedisCommand.execute without the EXEC branch: queue the command (reply
QUEUED) when the transaction is active and the kind queues, else run
_execute; in both cases apply the propagation step afterwards (an exception
from _execute skips it). -/
def executeNonExec (c : Cmd) (m : Machine) : Except PyError (Resp × Machine) :=
  if isQueueableKind c && m.queue.isSome then
    Except.ok
      (Resp.simpleString "QUEUED",
       propagateIfNeeded c { m with queue := m.queue.map (fun q => q ++ [c]) })
  else
    (cmdExecute c m).map (fun rm => (rm.1, propagateIfNeeded c rm.2))

/-- Plain sequential run of a list of commands through a given executor,
threading the machine and collecting the responses (the list comprehension
inside RedisTransaction.exec). -/
def runQueueAux (f : Cmd → Machine → Except PyError (Resp × Machine)) :
    List Cmd → Machine → Except PyError (List Resp × Machine)
  | [], m => Except.ok ([], m)
  | c :: cs, m =>
    match f c m with
    | Except.error e => Except.error e
    | Except.ok (r, m') =>
      match runQueueAux f cs m' with
      | Except.error e => Except.error e
      | Except.ok (rs, m'') => Except.ok (r :: rs, m'')

/-- The executor a queued command actually runs under during EXEC: straight
to _execute plus propagation, with no queue branch (this is what the source
achieves by clearing _command_queue before executing). -/
def executeDirect (c : Cmd) (m : Machine) : Except PyError (Resp × Machine) :=
  (cmdExecute c m).map (fun rm => (rm.1, propagateIfNeeded c rm.2))

/-- RedisCommand.execute, full dispatch. The fuel bounds the nesting depth
of EXEC inside queued commands; the source terminates because EXEC is never
queueable, which the theorems below recover from the same fact. EXEC with
an inactive transaction replies the EXEC-without-MULTI error (transaction
exec returned None); with an active transaction the queue is cleared first
and then each queued command is re-entered through execute. -/
def executeCmd : Nat → Cmd → Machine → Except PyError (Resp × Machine)
  | 0, Cmd.exec, m =>
    match m.queue with
    | none => Except.ok (Resp.simpleError "ERR EXEC without MULTI", m)
    | some _ => Except.error PyError.recursionError
  | fuel + 1, Cmd.exec, m =>
    match m.queue with
    | none => Except.ok (Resp.simpleError "ERR EXEC without MULTI", m)
    | some q =>
      match runQueueAux (fun c m' => executeCmd fuel c m') q { m with queue := none } with
      | Except.error e => Except.error e
      | Except.ok (rs, m') => Except.ok (Resp.array (some rs), m')
  | _, c, m => executeNonExec c m

/-! ### The snapshot loader (src/redis/database.py, RdbBytesIO and
RedisDatabaseLoader; src/redis/server.py, _try_load_database) -/

/-- The io.BytesIO wrapper: a byte buffer with a cursor. read(n) returns at
most n bytes from the cursor (fewer at end of buffer, never an error) and
advances by the number returned. -/
structure RdbReader where
  data : List Nat
  pos : Nat

def rdbRead (n : Nat) (r : RdbReader) : List Nat × RdbReader :=
  let out := (r.data.drop r.pos).take n
  (out, { r with pos := r.pos + out.length })

/-- RdbBytesIO.consume: read one byte and compare; on mismatch seek back one
byte (seek(-1, SEEK_CUR)); seeking before position zero raises ValueError,
which happens only when read(1) at the start of an empty buffer returned
nothing. -/
def rdbConsume (expected : Nat) (r : RdbReader) : Except PyError (Bool × RdbReader) :=
  match rdbRead 1 r with
  | ([b], r') =>
    if b = expected then Except.ok (true, r')
    else Except.ok (false, { r' with pos := r'.pos - 1 })
  | (_, r') =>
    if r'.pos = 0 then Except.error PyError.valueError
    else Except.ok (false, { r' with pos := r'.pos - 1 })

/-- int.from_bytes with big-endian order (the default used by read_size). -/
def fromBytesBE (l : List Nat) : Nat :=
  l.foldl (fun acc b => acc * 256 + b) 0

/-- int.from_bytes with little-endian byte order. -/
def fromBytesLE (l : List Nat) : Nat :=
  l.foldr (fun b acc => b + 256 * acc) 0

/-- RdbBytesIO.read_size: the top two bits of the first byte select the
mode; mode 3 is a string-encoding escape and raises ValueError here. -/
def rdbReadSize (r : RdbReader) : Except PyError (Nat × RdbReader) :=
  let (b, r1) := rdbRead 1 r
  let mode := fromBytesBE b / 64
  let remainder := fromBytesBE b % 64
  if mode = 0 then Except.ok (remainder, r1)
  else if mode = 1 then
    let (b2, r2) := rdbRead 1 r1
    Except.ok (remainder * 256 + fromBytesBE b2, r2)
  else if mode = 2 then
    let (b4, r2) := rdbRead 4 r1
    Except.ok (fromBytesBE b4, r2)
  else Except.error PyError.valueError

/-- Code points decoded from UTF-8 are Unicode scalar values, which
Char.ofNat maps faithfully to Char. -/
def pyStrOfCodePoints (l : List Nat) : String :=
  String.mk (l.map Char.ofNat)

/-- RdbBytesIO.read_string: the 0xC0 / 0xC1 / 0xC2 escapes decode little
endian integers rendered as decimal text, 0xC3 (LZF compression) raises
ValueError, and otherwise a size-prefixed UTF-8 string follows (a decode
failure raises UnicodeDecodeError, also modelled as an error). -/
def rdbReadString (r : RdbReader) : Except PyError (String × RdbReader) :=
  match rdbConsume 192 r with
  | Except.error e => Except.error e
  | Except.ok (true, r1) =>
    let (b, r2) := rdbRead 1 r1
    Except.ok (natToDecString (fromBytesLE b), r2)
  | Except.ok (false, r1) =>
    match rdbConsume 193 r1 with
    | Except.error e => Except.error e
    | Except.ok (true, r2) =>
      let (b, r3) := rdbRead 2 r2
      Except.ok (natToDecString (fromBytesLE b), r3)
    | Except.ok (false, r2) =>
      match rdbConsume 194 r2 with
      | Except.error e => Except.error e
      | Except.ok (true, r3) =>
        let (b, r4) := rdbRead 4 r3
        Except.ok (natToDecString (fromBytesLE b), r4)
      | Except.ok (false, r3) =>
        match rdbConsume 195 r3 with
        | Except.error e => Except.error e
        | Except.ok (true, _) => Except.error PyError.valueError
        | Except.ok (false, r4) =>
          match rdbReadSize r4 with
          | Except.error e => Except.error e
          | Except.ok (len, r5) =>
            let (bytes, r6) := rdbRead len r5
            match utf8Decode bytes with
            | none => Except.error PyError.valueError
            | some cps => Except.ok (pyStrOfCodePoints cps, r6)

/-- RedisDatabaseLoader._load_header: skip nine bytes. -/
def rdbLoadHeader (r : RdbReader) : RdbReader :=
  (rdbRead 9 r).2

/-- RedisDatabaseLoader._load_metadata: while a 0xFA byte is consumed, read
two strings. Every true consume advances the cursor, so the number of
iterations is bounded by the buffer size; the fuel makes that bound
syntactic and is always instantiated beyond it. -/
def rdbLoadMetadata : Nat → RdbReader → Except PyError RdbReader
  | 0, _ => Except.error PyError.recursionError
  | fuel + 1, r =>
    match rdbConsume 250 r with
    | Except.error e => Except.error e
    | Except.ok (false, r1) => Except.ok r1
    | Except.ok (true, r1) =>
      match rdbReadString r1 with
      | Except.error e => Except.error e
      | Except.ok (_, r2) =>
        match rdbReadString r2 with
        | Except.error e => Except.error e
        | Except.ok (_, r3) => rdbLoadMetadata fuel r3

/-- RedisDatabaseLoader._load_expire_timestamp: 0xFC eight-byte milliseconds,
0xFD four-byte seconds times 1000, otherwise never. -/
def rdbLoadExpire (r : RdbReader) : Except PyError (TimeVal × RdbReader) :=
  match rdbConsume 252 r with
  | Except.error e => Except.error e
  | Except.ok (true, r1) =>
    let (b, r2) := rdbRead 8 r1
    Except.ok (TimeVal.fin (fromBytesLE b), r2)
  | Except.ok (false, r1) =>
    match rdbConsume 253 r1 with
    | Except.error e => Except.error e
    | Except.ok (true, r2) =>
      let (b, r3) := rdbRead 4 r2
      Except.ok (TimeVal.fin (fromBytesLE b * 1000), r3)
    | Except.ok (false, r2) => Except.ok (TimeVal.inf, r2)

/-- RedisDatabaseLoader._load_key_value_pair: asserts the 0x00 string type
byte (a failed assert raises AssertionError, an error here), then reads the
key and value strings. -/
def rdbLoadKeyValue (r : RdbReader) : Except PyError ((String × String) × RdbReader) :=
  match rdbConsume 0 r with
  | Except.error e => Except.error e
  | Except.ok (false, _) => Except.error PyError.valueError
  | Except.ok (true, r1) =>
    match rdbReadString r1 with
    | Except.error e => Except.error e
    | Except.ok (key, r2) =>
      match rdbReadString r2 with
      | Except.error e => Except.error e
      | Except.ok (value, r3) => Except.ok ((key, value), r3)

/-- Record loop of RedisDatabaseLoader._load_database. -/
def rdbLoadRecords : Nat → Database → RdbReader → Except PyError (Database × RdbReader)
  | 0, db, r => Except.ok (db, r)
  | n + 1, db, r =>
    match rdbLoadExpire r with
    | Except.error e => Except.error e
    | Except.ok (expire, r1) =>
      match rdbLoadKeyValue r1 with
      | Except.error e => Except.error e
      | Except.ok ((key, value), r2) =>
        rdbLoadRecords n (dbSet db key (DataStruct.str value) expire) r2

/-- RedisDatabaseLoader._load_database: an optional 0xFE section with the
database index, an asserted 0xFB hash-table-size marker, two sizes, and
then the records. -/
def rdbLoadDatabase (r : RdbReader) : Except PyError Database :=
  match rdbConsume 254 r with
  | Except.error e => Except.error e
  | Except.ok (false, _) => Except.ok []
  | Except.ok (true, r1) =>
    match rdbReadSize r1 with
    | Except.error e => Except.error e
    | Except.ok (_, r2) =>
      match rdbConsume 251 r2 with
      | Except.error e => Except.error e
      | Except.ok (false, _) => Except.error PyError.valueError
      | Except.ok (true, r3) =>
        match rdbReadSize r3 with
        | Except.error e => Except.error e
        | Except.ok (totalSize, r4) =>
          match rdbReadSize r4 with
          | Except.error e => Except.error e
          | Except.ok (_, r5) =>
            match rdbLoadRecords totalSize [] r5 with
            | Except.error e => Except.error e
            | Except.ok (db, _) => Except.ok db

/-- RedisDatabaseLoader.load on the bytes of the snapshot file; none stands
for a missing file (open raises FileNotFoundError) or missing dir or
dbfilename configuration (a KeyError before open). -/
def rdbLoad (file : Option (List Nat)) : Except PyError Database :=
  match file with
  | none => Except.error PyError.valueError
  | some data =>
    match rdbLoadMetadata (data.length + 1) (rdbLoadHeader ⟨data, 0⟩) with
    | Except.error e => Except.error e
    | Except.ok r => rdbLoadDatabase r

/-- RedisServer._try_load_database: the bare except maps every load failure
to a fresh empty database. -/
def tryLoadDatabase (file : Option (List Nat)) : Database :=
  match rdbLoad file with
  | Except.ok db => db
  | Except.error _ => []

instance {ε α : Type} [DecidableEq ε] [DecidableEq α] : DecidableEq (Except ε α) := by
  intro a b
  cases a <;> cases b
  case error.error e1 e2 => exact decidable_of_iff (e1 = e2) (by simp)
  case ok.ok a1 a2 => exact decidable_of_iff (a1 = a2) (by simp)
  all_goals exact isFalse (by simp)

/-! ## Theorems

First the helper lemmas about decimal rendering, UTF-8 and the frame
decoder, then one theorem per claim. -/

theorem natToDecDigitsAux_zero (fuel : Nat) : natToDecDigitsAux fuel 0 = [] := by
  cases fuel <;> simp [natToDecDigitsAux]

theorem natToDecDigitsAux_lt_ten :
    ∀ (fuel n d : Nat), d ∈ natToDecDigitsAux fuel n → d < 10 := by
  intro fuel
  induction fuel with
  | zero => intro n d hd; simp [natToDecDigitsAux] at hd
  | succ fuel ih =>
    intro n d hd
    by_cases hn : n = 0
    · simp [natToDecDigitsAux, hn] at hd
    · simp only [natToDecDigitsAux, if_neg hn, List.mem_append, List.mem_singleton] at hd
      rcases hd with hd | hd
      · exact ih (n / 10) d hd
      · subst hd; exact Nat.mod_lt n (by norm_num)

theorem natToDecDigitsAux_ne_nil (fuel n : Nat) (hn : n ≠ 0) (h : n < fuel) :
    natToDecDigitsAux fuel n ≠ [] := by
  cases fuel with
  | zero => omega
  | succ fuel => simp [natToDecDigitsAux, hn]

theorem natToDecDigitsAux_foldl :
    ∀ (fuel n acc : Nat), n < fuel →
      (natToDecDigitsAux fuel n).foldl (fun a d => a * 10 + d) acc =
        acc * 10 ^ (natToDecDigitsAux fuel n).length + n := by
  intro fuel
  induction fuel with
  | zero => intro n acc h; omega
  | succ fuel ih =>
    intro n acc h
    by_cases hn : n = 0
    · simp [natToDecDigitsAux, hn]
    · have hdiv : n / 10 < fuel := by
        have h1 : n / 10 < n := Nat.div_lt_self (Nat.pos_of_ne_zero hn) (by norm_num)
        omega
      simp only [natToDecDigitsAux, if_neg hn, List.foldl_append, List.foldl_cons,
        List.foldl_nil, List.length_append, List.length_cons, List.length_nil]
      rw [ih (n / 10) acc hdiv]
      have hpow : acc * 10 ^ ((natToDecDigitsAux fuel (n / 10)).length + (0 + 1)) =
          acc * 10 ^ (natToDecDigitsAux fuel (n / 10)).length * 10 := by
        ring
      rw [hpow]
      generalize acc * 10 ^ (natToDecDigitsAux fuel (n / 10)).length = X
      omega

theorem natToDecDigits_lt_ten (n d : Nat) (hd : d ∈ natToDecDigits n) : d < 10 := by
  by_cases hn : n = 0
  · simp [natToDecDigits, hn] at hd; omega
  · simp only [natToDecDigits, if_neg hn] at hd
    exact natToDecDigitsAux_lt_ten (n + 1) n d hd

theorem natToDecDigits_ne_nil (n : Nat) : natToDecDigits n ≠ [] := by
  by_cases hn : n = 0
  · simp [natToDecDigits, hn]
  · simp only [natToDecDigits, if_neg hn]
    exact natToDecDigitsAux_ne_nil (n + 1) n hn (Nat.lt_succ_self n)

theorem natToDecDigits_foldl (n : Nat) :
    (natToDecDigits n).foldl (fun a d => a * 10 + d) 0 = n := by
  by_cases hn : n = 0
  · simp [natToDecDigits, hn]
  · simp only [natToDecDigits, if_neg hn]
    rw [natToDecDigitsAux_foldl (n + 1) n 0 (Nat.lt_succ_self n)]
    simp

theorem foldl_map_sub48 (l : List Nat) :
    ∀ acc : Nat,
      (l.map (· + 48)).foldl (fun a b => a * 10 + (b - 48)) acc =
        l.foldl (fun a d => a * 10 + d) acc := by
  induction l with
  | nil => intro acc; rfl
  | cons d l ih =>
    intro acc
    simp only [List.map_cons, List.foldl_cons, ih, Nat.add_sub_cancel]

theorem parseDigitBytes_natToDecBytes (n : Nat) :
    parseDigitBytes (natToDecBytes n) = some n := by
  have hne : natToDecBytes n ≠ [] := by
    simp only [natToDecBytes, ne_eq, List.map_eq_nil]
    exact natToDecDigits_ne_nil n
  have hall : (natToDecBytes n).all isDigitByte = true := by
    simp only [natToDecBytes, List.all_eq_true, List.mem_map]
    rintro b ⟨d, hd, rfl⟩
    have := natToDecDigits_lt_ten n d hd
    simp only [isDigitByte, Bool.and_eq_true, decide_eq_true_eq]
    omega
  have hcond : (!(natToDecBytes n).isEmpty && (natToDecBytes n).all isDigitByte) = true := by
    simp [List.isEmpty_iff, hne, hall]
  simp only [parseDigitBytes, hcond, if_true]
  simp only [digitBytesVal, natToDecBytes, foldl_map_sub48, natToDecDigits_foldl]

theorem natToDecBytes_head_digit (n x : Nat) (hx : (natToDecBytes n).head? = some x) :
    48 ≤ x ∧ x ≤ 57 := by
  have hmem : x ∈ natToDecBytes n := List.mem_of_mem_head? hx
  simp only [natToDecBytes, List.mem_map] at hmem
  obtain ⟨d, hd, rfl⟩ := hmem
  have := natToDecDigits_lt_ten n d hd
  omega

theorem parsePyIntBytes_natToDecBytes (n : Nat) :
    parsePyIntBytes (natToDecBytes n) = some (n : Int) := by
  have h45 : ¬((natToDecBytes n).head? = some 45) := by
    intro hx; have := natToDecBytes_head_digit n 45 hx; omega
  have h43 : ¬((natToDecBytes n).head? = some 43) := by
    intro hx; have := natToDecBytes_head_digit n 43 hx; omega
  simp only [parsePyIntBytes, if_neg h45, if_neg h43, parseDigitBytes_natToDecBytes,
    Option.map_some]
  rfl

theorem natToDecBytes_not_cr (n : Nat) : 13 ∉ natToDecBytes n := by
  intro hmem
  simp only [natToDecBytes, List.mem_map] at hmem
  obtain ⟨d, hd, heq⟩ := hmem
  omega

theorem utf8Encode_ascii (s : List Nat) (h : ∀ c ∈ s, c < 128) : utf8Encode s = s := by
  induction s with
  | nil => rfl
  | cons c cs ih =>
    have hc : c < 128 := h c (List.mem_cons_self c cs)
    have hcs : ∀ x ∈ cs, x < 128 := fun x hx => h x (List.mem_cons_of_mem c hx)
    simp [utf8Encode, utf8EncodeChar, hc, ih hcs]

theorem utf8Decode_cons_ascii (c : Nat) (cs : List Nat) (hc : c < 128) :
    utf8Decode (c :: cs) = (utf8Decode cs).map (c :: ·) := by
  show utf8DecodeSt none (c :: cs) = (utf8DecodeSt none cs).map (c :: ·)
  rw [utf8DecodeSt, if_pos hc]

theorem utf8Decode_ascii (s : List Nat) (h : ∀ c ∈ s, c < 128) : utf8Decode s = some s := by
  induction s with
  | nil => rfl
  | cons c cs ih =>
    have hc : c < 128 := h c (List.mem_cons_self c cs)
    have hcs : ∀ x ∈ cs, x < 128 := fun x hx => h x (List.mem_cons_of_mem c hx)
    rw [utf8Decode_cons_ascii c cs hc, ih hcs]
    rfl

theorem readUntilCRLF_cons (b : Nat) (rest : List Nat) :
    readUntilCRLF (b :: rest) =
      if b = 13 ∧ rest.head? = some 10 then some ([], rest.tail)
      else (readUntilCRLF rest).map (fun p => (b :: p.1, p.2)) := rfl

theorem readUntilCRLF_append (l r : List Nat) (h : 13 ∉ l) :
    readUntilCRLF (l ++ 13 :: 10 :: r) = some (l, r) := by
  induction l with
  | nil =>
    rw [List.nil_append, readUntilCRLF_cons, if_pos (by simp)]
    rfl
  | cons b l ih =>
    have hb : ¬(b = 13 ∧ (l ++ 13 :: 10 :: r).head? = some 10) := by
      rintro ⟨rfl, -⟩
      exact h (List.mem_cons_self 13 l)
    have hl : 13 ∉ l := fun hm => h (List.mem_cons_of_mem b hm)
    rw [List.cons_append, readUntilCRLF_cons, if_neg hb, ih hl]
    rfl

theorem dropLast_two (l : List Nat) (a b : Nat) :
    (l ++ [a, b]).dropLast.dropLast = l := by
  have h1 : l ++ [a, b] = (l ++ [a]) ++ [b] := by simp
  rw [h1]
  simp

theorem recvArgs_roundtrip (argv : List (List Nat)) (tail : List Nat)
    (h : ∀ s ∈ argv, ∀ c ∈ s, c < 128) :
    recvArgs argv.length
      (joinBytes (argv.map (fun a => respBulkStringSerialize (some a))) ++ tail) =
      some (argv, tail) := by
  induction argv generalizing tail with
  | nil => simp [recvArgs, joinBytes]
  | cons s rest ih =>
    have hs : ∀ c ∈ s, c < 128 := h s (List.mem_cons_self s rest)
    have hrest : ∀ t ∈ rest, ∀ c ∈ t, c < 128 := fun t ht => h t (List.mem_cons_of_mem s ht)
    have henc : joinBytes ((s :: rest).map (fun a => respBulkStringSerialize (some a))) ++ tail
        = (36 :: natToDecBytes s.length) ++ 13 :: 10 :: ((s ++ [13, 10]) ++
            (joinBytes (rest.map (fun a => respBulkStringSerialize (some a))) ++ tail)) := by
      simp [joinBytes, respBulkStringSerialize, utf8Encode_ascii s hs]
    rw [List.length_cons, henc]
    have hnocr : 13 ∉ 36 :: natToDecBytes s.length := by
      intro hmem
      rcases List.mem_cons.mp hmem with h36 | hrest2
      · omega
      · exact natToDecBytes_not_cr s.length hrest2
    simp only [recvArgs, readUntilCRLF_append _ _ hnocr, List.drop_succ_cons, List.drop_zero,
      parsePyIntBytes_natToDecBytes]
    have hneg : ¬((s.length : Int) + 2 < 0) := by omega
    rw [if_neg hneg]
    have htonat : ((s.length : Int) + 2).toNat = s.length + 2 := by omega
    rw [htonat]
    have hlen2 : s.length + 2 = (s ++ [13, 10]).length := by simp
    have hlong : ¬(((s ++ [13, 10]) ++
        (joinBytes (rest.map (fun a => respBulkStringSerialize (some a))) ++ tail)).length
          < s.length + 2) := by
      simp
    rw [if_neg hlong, hlen2, List.take_left, List.drop_left, dropLast_two,
      utf8Decode_ascii s hs, ih tail hrest]
    rfl

/-- C1 (amended): RESP round-trip holds for every argument vector of ASCII
strings: encoding via RespArray / RespBulkString.serialize and decoding with
the frame decoder of the connection (_recv_command) returns the original
vector. The restriction to ASCII is forced: the serializer frames the bulk
string with the CHARACTER count len(str) while the decoder consumes that
many BYTES, so any argument with a character above U+007F desynchronizes
the frame (see the counterexample theorem). -/
theorem resp_roundtrip_ascii (argv : List (List Nat))
    (h : ∀ s ∈ argv, ∀ c ∈ s, c < 128) :
    recvCommand (commandSerialize argv) = some argv := by
  have henc : commandSerialize argv =
      (42 :: natToDecBytes argv.length) ++ 13 :: 10 ::
        joinBytes (argv.map (fun a => respBulkStringSerialize (some a))) := by
    simp [commandSerialize, respArraySerialize]
  have hnocr : 13 ∉ 42 :: natToDecBytes argv.length := by
    intro hmem
    rcases List.mem_cons.mp hmem with h42 | hrest
    · omega
    · exact natToDecBytes_not_cr argv.length hrest
  have hr := recvArgs_roundtrip argv [] h
  rw [List.append_nil] at hr
  simp only [recvCommand, henc, readUntilCRLF_append _ _ hnocr, List.drop_succ_cons,
    List.drop_zero, parsePyIntBytes_natToDecBytes, Int.toNat_natCast, hr, Option.map_some]
  rfl

/-- C1 (counterexample): the round-trip fails on the argument vector made of
the single one-character string U+00E9: its bulk frame advertises length 1
but carries two UTF-8 bytes, and decoding aborts instead of returning the
vector. -/
theorem resp_roundtrip_utf8_counterexample :
    ¬(recvCommand (commandSerialize [[233]]) = some [[233]]) := by decide

/-- Witness for C1: the round-trip theorem applied to the concrete ASCII
vector PING / key. -/
theorem resp_roundtrip_ascii_witness :
    recvCommand (commandSerialize [[80, 73, 78, 71], [107, 101, 121]]) =
      some [[80, 73, 78, 71], [107, 101, 121]] :=
  resp_roundtrip_ascii [[80, 73, 78, 71], [107, 101, 121]] (by decide)

theorem pyInt_digits_ok (s : List Char) (hne : s ≠ []) (hdig : ∀ c ∈ s, '0' ≤ c ∧ c ≤ '9') :
    pyInt s = Except.ok (digitCharsVal s : Int) := by
  have h45 : ¬(s.head? = some '-') := by
    intro hx
    have := hdig '-' (List.mem_of_mem_head? hx)
    exact absurd this.1 (by decide)
  have h43 : ¬(s.head? = some '+') := by
    intro hx
    have := hdig '+' (List.mem_of_mem_head? hx)
    exact absurd this.1 (by decide)
  have hcond : (!s.isEmpty && s.all isDigitChar) = true := by
    cases s with
    | nil => exact absurd rfl hne
    | cons c cs =>
      simp only [List.isEmpty_cons, Bool.not_false, Bool.true_and, List.all_eq_true]
      intro x hx
      have := hdig x hx
      simp only [isDigitChar, Bool.and_eq_true, decide_eq_true_eq]
      exact this
  simp only [pyInt, if_neg h45, if_neg h43, parseDigitChars, hcond, if_true]
  rfl

/-- C2: for every nonempty all-digit string s (which therefore contains no
dash and is not the asterisk), string_to_entry_id reaches the branch for
plain-integer text and raises TypeError there, because the source line
constructs RedisStream (a no-argument constructor) instead of a
RedisStreamEntryId. The documented contract of returning (int(s), 0) under
default min and (int(s), 2^64-1) under default max is never fulfilled. -/
theorem stringToEntryId_digits_typeError (st : RedisStream) (seqDefault : SeqDefault)
    (now : Int) (s : List Char) (hne : s ≠ []) (hdig : ∀ c ∈ s, '0' ≤ c ∧ c ≤ '9') :
    stringToEntryId st s seqDefault now = Except.error PyError.typeError := by
  have hstar : s ≠ ['*'] := by
    intro he
    have := hdig '*' (by simp [he])
    exact absurd this.1 (by decide)
  have hnodash : ¬('-' ∈ s) := by
    intro hm
    have := hdig '-' hm
    exact absurd this.1 (by decide)
  unfold stringToEntryId
  rw [if_neg hstar, if_neg hnodash, pyInt_digits_ok s hne hdig]

/-- Witness for C2: the concrete digit string 5. -/
theorem stringToEntryId_digits_typeError_witness :
    stringToEntryId emptyStream "5".data SeqDefault.min 0 = Except.error PyError.typeError :=
  stringToEntryId_digits_typeError emptyStream SeqDefault.min 0 "5".data (by decide) (by decide)

/-- C3: increment does NOT treat an expired binding as absent. In the store
holding counter = "5" expired at time 0, observed at time 100, get reports
absent (and pops the binding), yet increment — which reads the raw dict
without the expiry check — returns 6 and keeps the stale binding (now "6")
together with its stale expire timestamp, instead of storing "1" and
returning 1 as the specified expiry invariant requires. -/
theorem increment_ignores_expiry :
    dbGet [("counter", ⟨DataStruct.str "5", TimeVal.fin 0⟩)] "counter" 100 = (none, []) ∧
    dbIncrement [("counter", ⟨DataStruct.str "5", TimeVal.fin 0⟩)] "counter" =
      (some 6, [("counter", ⟨DataStruct.str "6", TimeVal.fin 0⟩)]) :=
  ⟨rfl, rfl⟩

/-! ### Stream ordering lemmas -/

theorem idLeb_eq_false_iff (a b : RedisStreamEntryId) :
    idLeb a b = false ↔ idLtb b a = true := by
  simp only [idLeb, idLtb, Bool.or_eq_false_iff, Bool.or_eq_true, Bool.and_eq_true,
    Bool.and_eq_false_iff, decide_eq_true_eq, decide_eq_false_iff_not]
  omega

theorem idLeb_refl (a : RedisStreamEntryId) : idLeb a a = true := by
  simp [idLeb]

theorem idLeb_of_idLtb {a b : RedisStreamEntryId} (h : idLtb a b = true) :
    idLeb a b = true := by
  simp only [idLtb, Bool.or_eq_true, Bool.and_eq_true, decide_eq_true_eq] at h
  simp only [idLeb, Bool.or_eq_true, Bool.and_eq_true, decide_eq_true_eq]
  omega

theorem idLtb_trans {a b c : RedisStreamEntryId}
    (h1 : idLtb a b = true) (h2 : idLtb b c = true) : idLtb a c = true := by
  simp only [idLtb, Bool.or_eq_true, Bool.and_eq_true, decide_eq_true_eq] at h1 h2 ⊢
  omega

theorem idLtb_of_leb_of_ltb {a b c : RedisStreamEntryId}
    (h1 : idLeb a b = true) (h2 : idLtb b c = true) : idLtb a c = true := by
  simp only [idLeb, idLtb, Bool.or_eq_true, Bool.and_eq_true, decide_eq_true_eq] at h1 h2 ⊢
  omega

theorem idLeb_add_one {a b : RedisStreamEntryId} (h : idLeb a b = true) :
    idLeb a (idAdd b ⟨0, 1⟩) = true := by
  simp only [idLeb, idAdd, Bool.or_eq_true, Bool.and_eq_true, decide_eq_true_eq] at h ⊢
  omega

def streamKeys (s : RedisStream) : List RedisStreamEntryId := s.entries.map Prod.fst

/-- Invariant of streams built by successful xadd calls: the stored IDs are
strictly increasing in insertion order, strictly above (0, 0), and bounded
by the most recently inserted ID. -/
def StreamInv (s : RedisStream) : Prop :=
  (streamKeys s).Pairwise (fun a b => idLtb a b = true) ∧
  (∀ k ∈ streamKeys s, idLtb ⟨0, 0⟩ k = true) ∧
  (∀ k ∈ streamKeys s, idLeb k s.mostRecentEntryId = true) ∧
  idLeb ⟨0, 0⟩ s.mostRecentEntryId = true

theorem mostRecent_mem (s : RedisStream) (h : s.entries ≠ []) :
    s.mostRecentEntryId ∈ streamKeys s := by
  unfold RedisStream.mostRecentEntryId
  cases hl : s.entries.getLast? with
  | none => exact absurd (List.getLast?_eq_none_iff.mp hl) h
  | some p => exact List.mem_map_of_mem Prod.fst (List.mem_of_mem_getLast? hl)

theorem dictSet_append {κ α : Type} [DecidableEq κ] (d : List (κ × α)) (k : κ) (v : α)
    (h : ∀ p ∈ d, p.1 ≠ k) : dictSet d k v = d ++ [(k, v)] := by
  induction d with
  | nil => rfl
  | cons p rest ih =>
    have hp : p.1 ≠ k := h p (List.mem_cons_self p rest)
    have hrest : ∀ q ∈ rest, q.1 ≠ k := fun q hq => h q (List.mem_cons_of_mem p hq)
    obtain ⟨k', v'⟩ := p
    simp only [dictSet, if_neg hp, ih hrest, List.cons_append]

theorem dictGet_dictSet_self {κ α : Type} [DecidableEq κ] (d : List (κ × α)) (k : κ) (v : α) :
    dictGet (dictSet d k v) k = some v := by
  induction d with
  | nil => simp [dictSet, dictGet]
  | cons p rest ih =>
    obtain ⟨k', v'⟩ := p
    by_cases hk : k' = k
    · simp [dictSet, dictGet, hk]
    · simp [dictSet, dictGet, hk, ih]

theorem xadd_fail_iff (s : RedisStream) (id : RedisStreamEntryId)
    (kv : List (String × String)) :
    (s.xadd id kv).1 = false ↔ idLeb id s.mostRecentEntryId = true := by
  unfold RedisStream.xadd
  by_cases h : idLeb id s.mostRecentEntryId = true
  · simp [h]
  · simp [h]

theorem xadd_fail_state (s : RedisStream) (id : RedisStreamEntryId)
    (kv : List (String × String)) (h : (s.xadd id kv).1 = false) :
    (s.xadd id kv).2 = s := by
  unfold RedisStream.xadd at h ⊢
  by_cases hle : idLeb id s.mostRecentEntryId = true
  · simp [hle]
  · simp [hle] at h

theorem xadd_success_entries (s : RedisStream) (id : RedisStreamEntryId)
    (kv : List (String × String)) (hinv : StreamInv s) (h : (s.xadd id kv).1 = true) :
    (s.xadd id kv).2.entries = s.entries ++ [(id, ⟨id, kv⟩)] ∧
    (s.xadd id kv).2.seqLookup = dictSet s.seqLookup id.milliseconds id.sequenceNumber := by
  have hfalse : idLeb id s.mostRecentEntryId = false := by
    by_contra hc
    have : idLeb id s.mostRecentEntryId = true := by
      cases hb : idLeb id s.mostRecentEntryId
      · exact absurd hb hc
      · rfl
    unfold RedisStream.xadd at h
    rw [if_pos this] at h
    exact Bool.false_ne_true h
  have hnotin : ∀ p ∈ s.entries, p.1 ≠ id := by
    intro p hp he
    have hle := hinv.2.2.1 p.1 (List.mem_map_of_mem Prod.fst hp)
    rw [he] at hle
    rw [hle] at hfalse
    simp at hfalse
  unfold RedisStream.xadd
  rw [if_neg (by simp [hfalse])]
  exact ⟨dictSet_append s.entries id ⟨id, kv⟩ hnotin, rfl⟩

theorem mostRecent_of_append (sq : List (Int × Int))
    (es : List (RedisStreamEntryId × RedisStreamEntry)) (id : RedisStreamEntryId)
    (e : RedisStreamEntry) :
    (RedisStream.mk sq (es ++ [(id, e)])).mostRecentEntryId = id := by
  unfold RedisStream.mostRecentEntryId
  rw [show (RedisStream.mk sq (es ++ [(id, e)])).entries = es ++ [(id, e)] from rfl,
    List.getLast?_concat]

theorem reachable_inv (s : RedisStream) (h : ReachableStream s) : StreamInv s := by
  induction h with
  | init =>
    refine ⟨List.Pairwise.nil, ?_, ?_, idLeb_refl _⟩ <;> simp [streamKeys, emptyStream]
  | @step s id kv hr hadd ih =>
    obtain ⟨hpair, hpos, hle, hzle⟩ := ih
    have hfalse : idLeb id s.mostRecentEntryId = false := by
      cases hb : idLeb id s.mostRecentEntryId
      · rfl
      · unfold RedisStream.xadd at hadd
        rw [if_pos hb] at hadd
        exact absurd hadd (by simp)
    have htail_lt : idLtb s.mostRecentEntryId id = true := (idLeb_eq_false_iff _ _).mp hfalse
    have hzlt : idLtb ⟨0, 0⟩ id = true := idLtb_of_leb_of_ltb hzle htail_lt
    obtain ⟨hentries, -⟩ := xadd_success_entries s id kv ⟨hpair, hpos, hle, hzle⟩ hadd
    have hkeys : streamKeys (s.xadd id kv).2 = streamKeys s ++ [id] := by
      unfold streamKeys
      rw [hentries]
      simp
    have htail : (s.xadd id kv).2.mostRecentEntryId = id := by
      unfold RedisStream.mostRecentEntryId
      rw [hentries, List.getLast?_concat]
    refine ⟨?_, ?_, ?_, ?_⟩
    · rw [hkeys, List.pairwise_append]
      refine ⟨hpair, List.pairwise_singleton _ _, ?_⟩
      intro a ha b hb
      rw [List.mem_singleton] at hb
      subst hb
      exact idLtb_of_leb_of_ltb (hle a ha) htail_lt
    · rw [hkeys]
      intro k hk
      rcases List.mem_append.mp hk with hk | hk
      · exact hpos k hk
      · rw [List.mem_singleton] at hk
        subst hk
        exact hzlt
    · rw [hkeys, htail]
      intro k hk
      rcases List.mem_append.mp hk with hk | hk
      · exact idLeb_of_idLtb (idLtb_of_leb_of_ltb (hle k hk) htail_lt)
      · rw [List.mem_singleton] at hk
        subst hk
        exact idLeb_refl _
    · rw [htail]
      exact idLeb_of_idLtb hzlt

/-- C5: on every stream state reachable by successful xadd calls, xadd
fails exactly when the ID is (0,0) or not greater than the tail ID (these
conditions coincide on reachable states because the tail is at least
(0,0)), failure leaves the stream unchanged, and success appends the entry
and updates last_seq_for_ms at the milliseconds of the new ID. -/
theorem xadd_spec (s : RedisStream) (h : ReachableStream s) (entryId : RedisStreamEntryId)
    (kv : List (String × String)) :
    ((s.xadd entryId kv).1 = false ↔
      (entryId = ⟨0, 0⟩ ∨ idLeb entryId s.mostRecentEntryId = true)) ∧
    ((s.xadd entryId kv).1 = false → (s.xadd entryId kv).2 = s) ∧
    ((s.xadd entryId kv).1 = true →
      (s.xadd entryId kv).2.entries = s.entries ++ [(entryId, ⟨entryId, kv⟩)] ∧
      dictGet (s.xadd entryId kv).2.seqLookup entryId.milliseconds =
        some entryId.sequenceNumber) := by
  have hinv := reachable_inv s h
  refine ⟨?_, xadd_fail_state s entryId kv, ?_⟩
  · rw [xadd_fail_iff]
    constructor
    · intro hle
      exact Or.inr hle
    · rintro (rfl | hle)
      · exact hinv.2.2.2
      · exact hle
  · intro hs
    obtain ⟨he, hsq⟩ := xadd_success_entries s entryId kv hinv hs
    exact ⟨he, by rw [hsq]; exact dictGet_dictSet_self _ _ _⟩

/-- Witness for C5: a fresh stream and the ID (1,1). -/
theorem xadd_spec_witness :
    ((emptyStream.xadd ⟨1, 1⟩ []).1 = false ↔
      ((⟨1, 1⟩ : RedisStreamEntryId) = ⟨0, 0⟩ ∨
        idLeb ⟨1, 1⟩ emptyStream.mostRecentEntryId = true)) ∧
    ((emptyStream.xadd ⟨1, 1⟩ []).1 = false →
      (emptyStream.xadd ⟨1, 1⟩ []).2 = emptyStream) ∧
    ((emptyStream.xadd ⟨1, 1⟩ []).1 = true →
      (emptyStream.xadd ⟨1, 1⟩ []).2.entries =
        emptyStream.entries ++ [(⟨1, 1⟩, ⟨⟨1, 1⟩, []⟩)] ∧
      dictGet (emptyStream.xadd ⟨1, 1⟩ []).2.seqLookup
        (⟨(1 : Int), (1 : Int)⟩ : RedisStreamEntryId).milliseconds =
        some (⟨(1 : Int), (1 : Int)⟩ : RedisStreamEntryId).sequenceNumber) :=
  xadd_spec emptyStream ReachableStream.init ⟨1, 1⟩ []

/-- C6: on every reachable stream, each successful xadd strictly increases
the tail ID (so the tail IDs of any successful xadd sequence are strictly
increasing), xrange with both bounds absent returns all entries in storage
order, that order is strictly ascending in the IDs, and the tail ID
(most_recent_entry_id) is (0,0) on the empty stream and otherwise a stored
ID that bounds every stored ID from above. -/
theorem stream_ordering_spec (s : RedisStream) (h : ReachableStream s) :
    (∀ entryId kv, (s.xadd entryId kv).1 = true →
      idLtb s.mostRecentEntryId (s.xadd entryId kv).2.mostRecentEntryId = true ∧
      (s.xadd entryId kv).2.mostRecentEntryId = entryId) ∧
    s.xrange none none = s.entries.map Prod.snd ∧
    (streamKeys s).Pairwise (fun a b => idLtb a b = true) ∧
    (s.entries = [] → s.mostRecentEntryId = ⟨0, 0⟩) ∧
    (∀ k ∈ streamKeys s, idLeb k s.mostRecentEntryId = true) ∧
    (s.entries ≠ [] → s.mostRecentEntryId ∈ streamKeys s) := by
  obtain ⟨hpair, hpos, hle, hzle⟩ := reachable_inv s h
  refine ⟨?_, ?_, hpair, ?_, hle, mostRecent_mem s⟩
  · intro entryId kv hs
    have hfalse : idLeb entryId s.mostRecentEntryId = false := by
      cases hb : idLeb entryId s.mostRecentEntryId
      · rfl
      · have := (xadd_fail_iff s entryId kv).mpr hb
        rw [hs] at this
        simp at this
    obtain ⟨hentries, -⟩ :=
      xadd_success_entries s entryId kv ⟨hpair, hpos, hle, hzle⟩ hs
    have htail : (s.xadd entryId kv).2.mostRecentEntryId = entryId := by
      unfold RedisStream.mostRecentEntryId
      rw [hentries, List.getLast?_concat]
    refine ⟨?_, htail⟩
    rw [htail]
    exact (idLeb_eq_false_iff _ _).mp hfalse
  · show (s.entries.filter
        (fun p => idLeb ⟨0, 0⟩ p.1 && idLeb p.1 (idAdd s.mostRecentEntryId ⟨0, 1⟩))).map
        Prod.snd = s.entries.map Prod.snd
    refine congrArg (List.map Prod.snd) (List.filter_eq_self.mpr ?_)
    intro p hp
    have h1 : idLeb ⟨0, 0⟩ p.1 = true :=
      idLeb_of_idLtb (hpos p.1 (List.mem_map_of_mem Prod.fst hp))
    have h2 : idLeb p.1 (idAdd s.mostRecentEntryId ⟨0, 1⟩) = true :=
      idLeb_add_one (hle p.1 (List.mem_map_of_mem Prod.fst hp))
    simp [h1, h2]
  · intro he
    unfold RedisStream.mostRecentEntryId
    rw [he]
    rfl

/-- Witness for C6: the reachable one-entry stream holding ID (1,1). -/
theorem stream_ordering_spec_witness :
    (∀ entryId kv, ((emptyStream.xadd ⟨1, 1⟩ []).2.xadd entryId kv).1 = true →
      idLtb (emptyStream.xadd ⟨1, 1⟩ []).2.mostRecentEntryId
        (((emptyStream.xadd ⟨1, 1⟩ []).2.xadd entryId kv).2.mostRecentEntryId) = true ∧
      ((emptyStream.xadd ⟨1, 1⟩ []).2.xadd entryId kv).2.mostRecentEntryId = entryId) ∧
    (emptyStream.xadd ⟨1, 1⟩ []).2.xrange none none =
      (emptyStream.xadd ⟨1, 1⟩ []).2.entries.map Prod.snd ∧
    (streamKeys (emptyStream.xadd ⟨1, 1⟩ []).2).Pairwise (fun a b => idLtb a b = true) ∧
    ((emptyStream.xadd ⟨1, 1⟩ []).2.entries = [] →
      (emptyStream.xadd ⟨1, 1⟩ []).2.mostRecentEntryId = ⟨0, 0⟩) ∧
    (∀ k ∈ streamKeys (emptyStream.xadd ⟨1, 1⟩ []).2,
      idLeb k (emptyStream.xadd ⟨1, 1⟩ []).2.mostRecentEntryId = true) ∧
    ((emptyStream.xadd ⟨1, 1⟩ []).2.entries ≠ [] →
      (emptyStream.xadd ⟨1, 1⟩ []).2.mostRecentEntryId ∈
        streamKeys (emptyStream.xadd ⟨1, 1⟩ []).2) :=
  stream_ordering_spec (emptyStream.xadd ⟨1, 1⟩ []).2
    (ReachableStream.step ReachableStream.init (by decide))

/-- C7: every snapshot-load failure leaves the server with an empty store.
The bare except of _try_load_database maps any loader error to the empty
database; a missing file (or missing dir / dbfilename configuration) is one
such error; the LZF string-encoding escape 0xC3 makes read_string fail; and
a first size byte with top bits 11 makes read_size fail. tryLoadDatabase is
total, so no error ever propagates out of it. -/
theorem rdb_load_spec :
    (∀ (file : Option (List Nat)) (e : PyError),
      rdbLoad file = Except.error e → tryLoadDatabase file = []) ∧
    tryLoadDatabase none = [] ∧
    (∀ rest : List Nat, rdbReadString ⟨195 :: rest, 0⟩ = Except.error PyError.valueError) ∧
    (∀ (b : Nat) (rest : List Nat), 192 ≤ b → b ≤ 255 →
      rdbReadSize ⟨b :: rest, 0⟩ = Except.error PyError.valueError) := by
  refine ⟨?_, rfl, ?_, ?_⟩
  · intro file e hff
    unfold tryLoadDatabase
    rw [hff]
  · intro rest
    rfl
  · intro b rest hb1 hb2
    have hread : rdbRead 1 (⟨b :: rest, 0⟩ : RdbReader) = ([b], ⟨b :: rest, 1⟩) := rfl
    have hbe : fromBytesBE [b] = b := by simp [fromBytesBE]
    unfold rdbReadSize
    rw [hread]
    simp only [hbe]
    rw [if_neg (by omega), if_neg (by omega), if_neg (by omega)]

/-- Witness for C7: a snapshot whose first metadata string starts with the
LZF escape, the reader positioned on 0xC3, and the malformed size byte
0xC3, each driven to the concrete outcome. -/
theorem rdb_load_spec_witness :
    tryLoadDatabase (some [0, 0, 0, 0, 0, 0, 0, 0, 0, 250, 195]) = [] ∧
    rdbReadString ⟨[195], 0⟩ = Except.error PyError.valueError ∧
    rdbReadSize ⟨[195], 0⟩ = Except.error PyError.valueError :=
  ⟨rdb_load_spec.1 (some [0, 0, 0, 0, 0, 0, 0, 0, 0, 250, 195]) PyError.valueError rfl,
   rdb_load_spec.2.2.1 [],
   rdb_load_spec.2.2.2 195 [] (by decide) (by decide)⟩

/-- C8: a WAIT issued by a client whose propagate offset is zero broadcasts
no REPLCONF GETACK * (the machine, including the broadcast log, is
untouched) and replies with the integer count of acknowledged replicas;
with an empty replica set the reply is the integer 0 and the broadcast log
is untouched even when the offset is positive (send_command_to_replicas
returns early). WAIT always returns an integer; it never fails. -/
theorem wait_spec (m : Machine) (numReplicas timeoutMs : Int) :
    (m.propOffset = 0 →
      waitExecute numReplicas timeoutMs m =
        (Resp.integer (getNumAckedReplicas m m.propOffset), m)) ∧
    (m.replicas = [] →
      (waitExecute numReplicas timeoutMs m).1 = Resp.integer 0 ∧
      (waitExecute numReplicas timeoutMs m).2.sentToReplicas = m.sentToReplicas) := by
  constructor
  · intro h0
    unfold waitExecute
    rw [if_neg (by omega)]
  · intro hrep
    unfold waitExecute sendCommandToReplicas getNumAckedReplicas
    simp [hrep]

/-- Witness for C8: WAIT 1 50 on a connection with no propagated bytes and
no replicas. -/
theorem wait_spec_witness :
    waitExecute 1 50 ⟨[], none, 0, [], [], 0⟩ =
      (Resp.integer (getNumAckedReplicas ⟨[], none, 0, [], [], 0⟩ 0),
       ⟨[], none, 0, [], [], 0⟩) ∧
    (waitExecute 1 50 ⟨[], none, 0, [], [], 0⟩).1 = Resp.integer 0 :=
  ⟨(wait_spec ⟨[], none, 0, [], [], 0⟩ 1 50).1 rfl,
   ((wait_spec ⟨[], none, 0, [], [], 0⟩ 1 50).2 rfl).1⟩

/-- C9: each mis-sequenced transaction-control command returns a RESP simple
error through the full command-execution layer and leaves the machine —
store, transaction queue and queued commands included — unchanged: MULTI
when a transaction is already active, DISCARD when none is active, EXEC
when none is active. None of the three is ever queued. -/
theorem transaction_missequence_spec (m : Machine) (q : List Cmd) (fuel : Nat) :
    (m.queue = some q →
      executeCmd fuel Cmd.multi m =
        Except.ok (Resp.simpleError "ERR MULTI calls can not be nested", m)) ∧
    (m.queue = none →
      executeCmd fuel Cmd.discard m =
        Except.ok (Resp.simpleError "ERR DISCARD without MULTI", m)) ∧
    (m.queue = none →
      executeCmd fuel Cmd.exec m =
        Except.ok (Resp.simpleError "ERR EXEC without MULTI", m)) := by
  obtain ⟨db, qu, po, reps, sent, now⟩ := m
  refine ⟨?_, ?_, ?_⟩ <;> intro hq <;> simp only [] at hq <;> subst hq <;>
    cases fuel <;> rfl

/-- Witness for C9: the three mis-sequencings on concrete machines. -/
theorem transaction_missequence_spec_witness :
    executeCmd 1 Cmd.multi ⟨[], some [], 0, [], [], 0⟩ =
      Except.ok (Resp.simpleError "ERR MULTI calls can not be nested",
        ⟨[], some [], 0, [], [], 0⟩) ∧
    executeCmd 1 Cmd.discard ⟨[], none, 0, [], [], 0⟩ =
      Except.ok (Resp.simpleError "ERR DISCARD without MULTI", ⟨[], none, 0, [], [], 0⟩) ∧
    executeCmd 1 Cmd.exec ⟨[], none, 0, [], [], 0⟩ =
      Except.ok (Resp.simpleError "ERR EXEC without MULTI", ⟨[], none, 0, [], [], 0⟩) :=
  ⟨(transaction_missequence_spec ⟨[], some [], 0, [], [], 0⟩ [] 1).1 rfl,
   (transaction_missequence_spec ⟨[], none, 0, [], [], 0⟩ [] 1).2.1 rfl,
   (transaction_missequence_spec ⟨[], none, 0, [], [], 0⟩ [] 1).2.2 rfl⟩

theorem executeCmd_not_exec (fuel : Nat) (c : Cmd) (hc : c ≠ Cmd.exec) (m : Machine) :
    executeCmd fuel c m = executeNonExec c m := by
  cases fuel <;> cases c <;> first | rfl | exact absurd rfl hc

theorem executeNonExec_inactive (c : Cmd) (m : Machine) (hq : m.queue = none) :
    executeNonExec c m =
      (cmdExecute c m).map (fun rm => (rm.1, propagateIfNeeded c rm.2)) := by
  unfold executeNonExec
  rw [hq]
  simp

/-- C10: XADD on a key absent from the store whose parsed entry ID is
rejected by the fresh stream (not greater than the fresh tail (0,0)) replies
with the matching error, yet leaves the key bound to a newly created empty
stream with no expiry — the store is mutated before the ID is validated. A
subsequent TYPE on that key therefore replies stream, not none. -/
theorem xadd_absent_key_spec (m : Machine) (key idStr : String)
    (pairs : List (String × String)) (entryId : RedisStreamEntryId) (fuel : Nat)
    (hq : m.queue = none) (habsent : dictGet m.db key = none)
    (hparse : stringToEntryId emptyStream idStr.data SeqDefault.min m.now =
      Except.ok entryId)
    (hrej : idLeb entryId ⟨0, 0⟩ = true) :
    executeCmd fuel (Cmd.xadd key idStr pairs) m =
      Except.ok
        ((if entryId = ⟨0, 0⟩ then
            Resp.simpleError "ERR The ID specified in XADD must be greater than 0-0"
          else
            Resp.simpleError
              "ERR The ID specified in XADD is equal or smaller than the target stream top item"),
         { m with db := dbSet m.db key (DataStruct.stream emptyStream) TimeVal.inf }) ∧
    executeCmd fuel (Cmd.typeCmd key)
        { m with db := dbSet m.db key (DataStruct.stream emptyStream) TimeVal.inf } =
      Except.ok (Resp.simpleString "stream",
        { m with db := dbSet m.db key (DataStruct.stream emptyStream) TimeVal.inf }) := by
  have hget : dbGet m.db key m.now = (none, m.db) := by
    unfold dbGet
    rw [habsent]
  have hxadd : emptyStream.xadd entryId (pairs.foldl (fun d kv => dictSet d kv.1 kv.2) []) =
      (false, emptyStream) := by
    unfold RedisStream.xadd
    rw [show emptyStream.mostRecentEntryId = ⟨0, 0⟩ from rfl, hrej]
    simp
  have haux : xaddExecute key idStr pairs m =
      xaddOnStream key idStr pairs m emptyStream
        (dbSet m.db key (DataStruct.stream emptyStream) TimeVal.inf) := by
    unfold xaddExecute
    rw [hget]
  have haux2 : xaddOnStream key idStr pairs m emptyStream
      (dbSet m.db key (DataStruct.stream emptyStream) TimeVal.inf) =
      Except.ok
        ((if entryId = ⟨0, 0⟩ then
            Resp.simpleError "ERR The ID specified in XADD must be greater than 0-0"
          else
            Resp.simpleError
              "ERR The ID specified in XADD is equal or smaller than the target stream top item"),
         { m with db := dbSet m.db key (DataStruct.stream emptyStream) TimeVal.inf }) := by
    unfold xaddOnStream
    simp only [hparse, hxadd]
    by_cases h00 : entryId = ⟨0, 0⟩
    · rw [if_pos h00, if_pos h00]
    · rw [if_neg h00, if_neg h00]
  constructor
  · rw [executeCmd_not_exec fuel _ (by simp) m, executeNonExec_inactive _ m hq,
      show cmdExecute (Cmd.xadd key idStr pairs) m = xaddExecute key idStr pairs m from rfl,
      haux, haux2]
    rfl
  · rw [executeCmd_not_exec fuel _ (by simp) _,
      executeNonExec_inactive (Cmd.typeCmd key)
        { m with db := dbSet m.db key (DataStruct.stream emptyStream) TimeVal.inf } hq]
    have hget2a : dictGet (dbSet m.db key (DataStruct.stream emptyStream) TimeVal.inf) key =
        some ⟨DataStruct.stream emptyStream, TimeVal.inf⟩ :=
      dictGet_dictSet_self m.db key _
    have hget2 : dbGet (dbSet m.db key (DataStruct.stream emptyStream) TimeVal.inf) key m.now =
        (some (DataStruct.stream emptyStream),
         dbSet m.db key (DataStruct.stream emptyStream) TimeVal.inf) := by
      unfold dbGet
      rw [hget2a]
      rfl
    have htype : typeExecute key
        { m with db := dbSet m.db key (DataStruct.stream emptyStream) TimeVal.inf } =
        (Resp.simpleString "stream",
         { m with db := dbSet m.db key (DataStruct.stream emptyStream) TimeVal.inf }) := by
      unfold typeExecute
      rw [show ({ m with db := dbSet m.db key (DataStruct.stream emptyStream) TimeVal.inf} :
          Machine).db = dbSet m.db key (DataStruct.stream emptyStream) TimeVal.inf from rfl,
        hget2]
    rw [show cmdExecute (Cmd.typeCmd key)
        { m with db := dbSet m.db key (DataStruct.stream emptyStream) TimeVal.inf } =
        Except.ok (typeExecute key
          { m with db := dbSet m.db key (DataStruct.stream emptyStream) TimeVal.inf }) from rfl,
      htype]
    rfl

/-- Witness for C10: XADD s 0-0 a b on an empty store at time 0, then TYPE s. -/
theorem xadd_absent_key_spec_witness :
    executeCmd 1 (Cmd.xadd "s" "0-0" [("a", "b")]) ⟨[], none, 0, [], [], 0⟩ =
      Except.ok (Resp.simpleError "ERR The ID specified in XADD must be greater than 0-0",
        ⟨[("s", ⟨DataStruct.stream emptyStream, TimeVal.inf⟩)], none, 0, [], [], 0⟩) ∧
    executeCmd 1 (Cmd.typeCmd "s")
        ⟨[("s", ⟨DataStruct.stream emptyStream, TimeVal.inf⟩)], none, 0, [], [], 0⟩ =
      Except.ok (Resp.simpleString "stream",
        ⟨[("s", ⟨DataStruct.stream emptyStream, TimeVal.inf⟩)], none, 0, [], [], 0⟩) :=
  xadd_absent_key_spec ⟨[], none, 0, [], [], 0⟩ "s" "0-0" [("a", "b")] ⟨0, 0⟩ 1
    rfl rfl rfl rfl

theorem propagateIfNeeded_queue (c : Cmd) (m : Machine) :
    (propagateIfNeeded c m).queue = m.queue := by
  unfold propagateIfNeeded sendCommandToReplicas
  split
  · split <;> rfl
  · rfl

theorem cmdExecute_queue_eq (c : Cmd) (hc : isQueueableKind c = true) (m : Machine)
    (r : Resp) (m' : Machine) (h : cmdExecute c m = Except.ok (r, m')) :
    m'.queue = m.queue := by
  cases c <;>
    first
    | (simp only [cmdExecute, getExecute, setExecute, incrExecute, typeExecute, keysExecute,
         waitExecute, xaddExecute, xaddOnStream, xrangeExecute, sendCommandToReplicas] at h
       repeat' split at h
       all_goals
         first
         | (simp at h; done)
         | (simp only [Except.ok.injEq, Prod.mk.injEq] at h
            obtain ⟨-, h2⟩ := h
            subst h2
            rfl))
    | simp [isQueueableKind] at hc

theorem executeDirect_queue (c : Cmd) (hc : isQueueableKind c = true) (m : Machine)
    (r : Resp) (m' : Machine) (h : executeDirect c m = Except.ok (r, m')) :
    m'.queue = m.queue := by
  unfold executeDirect at h
  cases hce : cmdExecute c m with
  | error e =>
    rw [hce] at h
    simp [Except.map] at h
  | ok rm =>
    rw [hce] at h
    simp only [Except.map, Except.ok.injEq, Prod.mk.injEq] at h
    obtain ⟨-, h2⟩ := h
    rw [← h2, propagateIfNeeded_queue]
    exact cmdExecute_queue_eq c hc m rm.1 rm.2 (by rw [hce])

theorem executeCmd_queueable_inactive (fuel : Nat) (c : Cmd) (hc : isQueueableKind c = true)
    (m : Machine) (hq : m.queue = none) :
    executeCmd fuel c m = executeDirect c m := by
  rw [executeCmd_not_exec fuel c (by cases c <;> simp_all [isQueueableKind]) m,
    executeNonExec_inactive c m hq]
  rfl

theorem runQueueAux_cons (f : Cmd → Machine → Except PyError (Resp × Machine))
    (c : Cmd) (cs : List Cmd) (m : Machine) :
    runQueueAux f (c :: cs) m =
      match f c m with
      | Except.error e => Except.error e
      | Except.ok (r, m') =>
        match runQueueAux f cs m' with
        | Except.error e => Except.error e
        | Except.ok (rs, m'') => Except.ok (r :: rs, m'') := rfl

theorem runQueueAux_executeCmd_eq (fuel : Nat) (q : List Cmd) (m : Machine)
    (hq : m.queue = none) (hall : ∀ c ∈ q, isQueueableKind c = true) :
    runQueueAux (fun c m' => executeCmd fuel c m') q m = runQueueAux executeDirect q m := by
  induction q generalizing m with
  | nil => rfl
  | cons c cs ih =>
    have hc : isQueueableKind c = true := hall c (List.mem_cons_self c cs)
    have hcs : ∀ x ∈ cs, isQueueableKind x = true :=
      fun x hx => hall x (List.mem_cons_of_mem c hx)
    rw [runQueueAux_cons, runQueueAux_cons,
      executeCmd_queueable_inactive fuel c hc m hq]
    cases hd : executeDirect c m with
    | error e => rfl
    | ok rm =>
      obtain ⟨r, m'⟩ := rm
      have hq' : m'.queue = none := by
        rw [executeDirect_queue c hc m r m' hd, hq]
      show (match runQueueAux (fun c m' => executeCmd fuel c m') cs m' with
          | Except.error e => Except.error e
          | Except.ok (rs, m'') => Except.ok (r :: rs, m'')) =
        (match runQueueAux executeDirect cs m' with
          | Except.error e => Except.error e
          | Except.ok (rs, m'') => Except.ok (r :: rs, m''))
      rw [ih m' hq' hcs]

/-- C4: on a connection whose transaction is active with queue c1..cn of
queueable commands (MULTI, EXEC and DISCARD can never be queued), EXEC first
clears the queue and then runs c1..cn in order under the direct executor —
_execute plus propagation, with no QUEUED branch, so none of them is ever
re-queued — replying with the array of their responses; and EXEC on an
inactive transaction replies the EXEC-without-MULTI simple error and leaves
the machine unchanged. -/
theorem exec_transaction_spec (fuel : Nat) (m : Machine) (q : List Cmd)
    (hq : m.queue = some q) (hall : ∀ c ∈ q, isQueueableKind c = true) :
    executeCmd (fuel + 1) Cmd.exec m =
      (match runQueueAux executeDirect q { m with queue := none } with
       | Except.error e => Except.error e
       | Except.ok (rs, m') => Except.ok (Resp.array (some rs), m')) ∧
    (∀ m2 : Machine, m2.queue = none →
      executeCmd (fuel + 1) Cmd.exec m2 =
        Except.ok (Resp.simpleError "ERR EXEC without MULTI", m2)) := by
  constructor
  · show (match m.queue with
      | none => Except.ok (Resp.simpleError "ERR EXEC without MULTI", m)
      | some q =>
        match runQueueAux (fun c m' => executeCmd fuel c m') q { m with queue := none } with
        | Except.error e => Except.error e
        | Except.ok (rs, m') => Except.ok (Resp.array (some rs), m')) = _
    simp only [hq]
    rw [runQueueAux_executeCmd_eq fuel q { m with queue := none } rfl hall]
  · intro m2 hq2
    show (match m2.queue with
      | none => Except.ok (Resp.simpleError "ERR EXEC without MULTI", m2)
      | some q =>
        match runQueueAux (fun c m' => executeCmd fuel c m') q { m2 with queue := none } with
        | Except.error e => Except.error e
        | Except.ok (rs, m') => Except.ok (Resp.array (some rs), m')) = _
    simp only [hq2]

/-- Witness for C4: EXEC after queueing INCR x twice on an empty store, and
EXEC with an inactive transaction. -/
theorem exec_transaction_spec_witness :
    executeCmd 1 Cmd.exec ⟨[], some [Cmd.incr "x", Cmd.incr "x"], 0, [], [], 0⟩ =
      (match runQueueAux executeDirect [Cmd.incr "x", Cmd.incr "x"] ⟨[], none, 0, [], [], 0⟩ with
       | Except.error e => Except.error e
       | Except.ok (rs, m') => Except.ok (Resp.array (some rs), m')) ∧
    executeCmd 1 Cmd.exec ⟨[], none, 0, [], [], 0⟩ =
      Except.ok (Resp.simpleError "ERR EXEC without MULTI", ⟨[], none, 0, [], [], 0⟩) :=
  ⟨(exec_transaction_spec 0 ⟨[], some [Cmd.incr "x", Cmd.incr "x"], 0, [], [], 0⟩
      [Cmd.incr "x", Cmd.incr "x"] rfl (by decide)).1,
   (exec_transaction_spec 0 ⟨[], some [], 0, [], [], 0⟩ [] rfl (by decide)).2
     ⟨[], none, 0, [], [], 0⟩ rfl⟩
